import Mathlib

/-!
Shallow embedding of the Yellow Pages / Facebook scraper repository
(YP_scraper.py, facebook.py, unified_scraper.py).

Browser interaction is represented by environment functions supplied to the
embedded operations: a DOM query maps a selector to the list of matching
elements (or a driver error), navigation outcomes are given as values, and
console output, sleeps and screenshots are tracked only where a claim needs
them.  Character classes of the Python regular expressions and of
str.strip / str.split are modelled over ASCII.
-/

namespace WebScrapers

/-- Errors raised by webdriver calls: NoSuchElementException, TimeoutException,
and every other exception class. -/
inductive Err
  | nosuch
  | timeoutErr
  | other
deriving DecidableEq

/-- A DOM element as the scraper observes it: its visible text and its
href attribute (none when get_attribute returns None). -/
structure DomElem where
  text : String
  href : Option String := none
deriving DecidableEq

/-- Locator strategies used by the scripts (selenium By values). -/
inductive By
  | ID
  | NAME
  | CSS_SELECTOR
  | XPATH
deriving DecidableEq

instance {ε α : Type} [DecidableEq ε] [DecidableEq α] :
    DecidableEq (Except ε α) := fun a b =>
  match a, b with
  | .ok x, .ok y =>
    if h : x = y then .isTrue (by rw [h]) else .isFalse (by simp [h])
  | .ok _, .error _ => .isFalse (by simp)
  | .error _, .ok _ => .isFalse (by simp)
  | .error x, .error y =>
    if h : x = y then .isTrue (by rw [h]) else .isFalse (by simp [h])

/-- `leadsWith pre l` is true when `pre` is an initial segment of `l`. -/
def leadsWith : List Char → List Char → Bool
  | [], _ => true
  | _ :: _, [] => false
  | a :: as, b :: bs => a = b && leadsWith as bs

/-- `hasSub needle hay`: `needle` occurs contiguously inside `hay`
(Python `needle in hay`). -/
def hasSub (needle : List Char) : List Char → Bool
  | [] => leadsWith needle []
  | c :: t => leadsWith needle (c :: t) || hasSub needle t

/-- Python `needle in hay` on strings. -/
def strContains (hay needle : String) : Bool :=
  hasSub needle.toList hay.toList

/-- ASCII whitespace as Python str.strip and str.split treat it. -/
def isSpaceChar (c : Char) : Bool :=
  c = ' ' || c = '\t' || c = '\n' || c = '\r' || c = '\x0b' || c = '\x0c'

/-- Python s.strip(). -/
def strTrim (s : String) : String :=
  String.mk (((s.toList.dropWhile isSpaceChar).reverse.dropWhile
    isSpaceChar).reverse)

/-- The words of Python s.split(): maximal non-whitespace runs, no empties;
the first argument accumulates the current word reversed. -/
def wordsAux : List Char → List Char → List (List Char)
  | [], cur => if cur.isEmpty then [] else [cur.reverse]
  | c :: cs, cur =>
    if isSpaceChar c then
      if cur.isEmpty then wordsAux cs [] else cur.reverse :: wordsAux cs []
    else wordsAux cs (c :: cur)

/-- Join character-list words with single spaces. -/
def joinSpace : List (List Char) → List Char
  | [] => []
  | [w] => w
  | w :: ws => w ++ ' ' :: joinSpace ws

/-- Python `\x27 \x27.join(s.split())`: collapse whitespace runs to single
spaces and drop leading/trailing whitespace. -/
def normSpace (s : String) : String :=
  String.mk (joinSpace (wordsAux s.toList []))

/-- Drop `pre` from the front of a list when it is an initial segment. -/
def dropLead : List Char → List Char → Option (List Char)
  | [], cs => some cs
  | _ :: _, [] => none
  | a :: as, b :: bs => if a = b then dropLead as bs else none

/-- Python s.replace(old, new): replace every non-overlapping occurrence,
scanning left to right; each step consumes at least one character, so fuel
equal to the input length is exact. -/
def replaceAllAux (needle repl : List Char) : Nat → List Char → List Char
  | 0, cs => cs
  | _ + 1, [] => []
  | fuel + 1, c :: cs =>
    match dropLead needle (c :: cs) with
    | some rest => repl ++ replaceAllAux needle repl fuel rest
    | none => c :: replaceAllAux needle repl fuel cs

/-- Python s.replace(old, new). -/
def strReplace (s old new : String) : String :=
  String.mk (replaceAllAux old.toList new.toList s.toList.length s.toList)

/-- Python s.split(sep)[0]: the text before the first occurrence of sep. -/
def takeBeforeAux (needle : List Char) : List Char → List Char
  | [] => []
  | c :: cs =>
    if leadsWith needle (c :: cs) then [] else c :: takeBeforeAux needle cs

/-- Python s.split(sep)[0]. -/
def strCut (s sep : String) : String :=
  String.mk (takeBeforeAux sep.toList s.toList)

/-- Python s.startswith(pre). -/
def strStarts (s pre : String) : Bool :=
  leadsWith pre.toList s.toList

/-- Python s.lower() on ASCII text. -/
def strLower (s : String) : String :=
  String.mk (s.toList.map Char.toLower)

/-- Python len(s). -/
def strLen (s : String) : Nat :=
  s.toList.length

/-- Whether a string is empty. -/
def strIsEmpty (s : String) : Bool :=
  s.toList.isEmpty

/-- Python s[0], used only behind a non-empty guard. -/
def firstChar (s : String) : Char :=
  s.toList.headD (Char.ofNat 0)

/-- The business-name selector chain of extract_listings. -/
def name_selectors : List String :=
  ["a.business-name", ".business-name", "h2.n a", ".info-section h2 a",
   "[class*=\x27business-name\x27]", ".info h2 a"]

/-- `listing.find_element(By.CSS_SELECTOR, sel)`: the first match, a
NoSuchElementException when the query matches nothing, and the driver
error itself when the query raises. -/
def findElementE (q : String → Except Err (List DomElem)) (sel : String) :
    Except Err DomElem :=
  match q sel with
  | .error e => .error e
  | .ok [] => .error .nosuch
  | .ok (e :: _) => .ok e

/-- The business-name loop of extract_listings: `business_name` starts as
"Unknown", each matching candidate overwrites it with the stripped text, a
non-empty value stops the chain, and only NoSuchElementException is caught. -/
def extractNameGo (q : String → Except Err (List DomElem)) :
    List String → String → Except Err String
  | [], acc => .ok acc
  | sel :: rest, acc =>
    match findElementE q sel with
    | .error .nosuch => extractNameGo q rest acc
    | .error e => .error e
    | .ok el =>
      let nm := strTrim el.text
      if nm = "" then extractNameGo q rest nm else .ok nm

/-- Business-name extraction over a selector chain and a scoped query. -/
def extractNameE (sels : List String)
    (q : String → Except Err (List DomElem)) : Except Err String :=
  extractNameGo q sels "Unknown"

/-- The value a single candidate contributes when it wins: the first match
of the selector, provided its stripped text is non-empty. -/
def candVal (q : String → Except Err (List DomElem)) (sel : String) :
    Option String :=
  match q sel with
  | .ok (e :: _) => let t := strTrim e.text; if t = "" then none else some t
  | _ => none

/-- The first candidate of the chain that yields non-empty stripped text. -/
def winnerQ (sels : List String) (q : String → Except Err (List DomElem)) :
    Option String :=
  sels.findSome? (candVal q)

/-- Whether any candidate of the chain matches at least one element. -/
def anyMatch (sels : List String) (q : String → Except Err (List DomElem)) :
    Bool :=
  sels.any (fun s => match q s with | .ok (_ :: _) => true | _ => false)

/-- The phone-number selector chain (Method 1) of extract_listings. -/
def phone_selectors : List String :=
  [".phones.phone.primary", ".phone.primary", ".phones", "div.phone",
   "[class*=\x27phone primary\x27]", ".info-secondary .phone"]

/-- Method 1 inner loop: accept the first element whose stripped,
whitespace-collapsed text is non-empty and starts with a digit or "(". -/
def scanPhoneElems : List DomElem → Option String
  | [] => none
  | e :: es =>
    let t := normSpace (strTrim e.text)
    if strIsEmpty t then scanPhoneElems es
    else if (firstChar t).isDigit || strStarts t "(" then some t
    else scanPhoneElems es

/-- Method 1 selector loop: every query error is swallowed by the bare
except and the chain continues. -/
def phoneM1Go (q : String → Except Err (List DomElem)) :
    List String → Option String
  | [] => none
  | sel :: rest =>
    match q sel with
    | .error _ => phoneM1Go q rest
    | .ok elems =>
      match scanPhoneElems elems with
      | some v => some v
      | none => phoneM1Go q rest

/-- Phone Method 1: the direct-text selector chain. -/
def phoneM1 (q : String → Except Err (List DomElem)) : Option String :=
  phoneM1Go q phone_selectors

/-- The value a tel-link candidate is judged on: its stripped visible text,
or, when that is empty, its href with every "tel:" and "+1" removed and the
result stripped (href absent gives the empty value). -/
def telVal (e : DomElem) : String :=
  let t := strTrim e.text
  if strIsEmpty t then
    strTrim (strReplace (strReplace (e.href.getD "") "tel:" "") "+1" "")
  else t

/-- Method 2 link loop: a link with empty text and a missing href raises
AttributeError, which the surrounding `except: pass` turns into giving up on
Method 2 entirely. -/
def scanTel : List DomElem → Option String
  | [] => none
  | e :: es =>
    if strIsEmpty (strTrim e.text) then
      match e.href with
      | none => none
      | some h =>
        if 10 ≤ strLen (strTrim (strReplace (strReplace h "tel:" "") "+1" ""))
        then some (strTrim (strReplace (strReplace h "tel:" "") "+1" ""))
        else scanTel es
    else
      if 10 ≤ strLen (strTrim e.text) then some (strTrim e.text)
      else scanTel es

/-- Phone Method 2: hyperlinks whose target scheme is "tel:". -/
def phoneM2 (q : String → Except Err (List DomElem)) : Option String :=
  match q "a[href^=\x27tel:\x27]" with
  | .error _ => none
  | .ok links => scanTel links

/-- The separator class of the phone pattern, ASCII view of [-.\s]. -/
def isSep (c : Char) : Bool :=
  c = '-' || c = '.' || isSpaceChar c

/-- Take exactly `n` ASCII digits from the front of the character list. -/
def takeDigits : Nat → List Char → Option (List Char × List Char)
  | 0, cs => some ([], cs)
  | _ + 1, [] => none
  | n + 1, c :: cs =>
    if c.isDigit then
      match takeDigits n cs with
      | some (ds, rest) => some (c :: ds, rest)
      | none => none
    else none

/-- Consume one optional character satisfying `p`.  For the phone pattern
this greedy choice never needs backtracking: a character in the optional
class can never satisfy what follows it. -/
def optChar (p : Char → Bool) : List Char → (List Char × List Char)
  | [] => ([], [])
  | c :: cs => if p c then ([c], cs) else ([], c :: cs)

/-- Match the phone pattern (optional "(", three digits, optional ")",
optional separator, three digits, optional separator, four digits) at the
start of the list, returning the matched text and the remaining input. -/
def matchPhoneAt (cs : List Char) : Option (String × List Char) :=
  let (p1, cs1) := optChar (fun c => c = '(') cs
  match takeDigits 3 cs1 with
  | none => none
  | some (d1, cs2) =>
    let (p2, cs3) := optChar (fun c => c = ')') cs2
    let (s1, cs4) := optChar isSep cs3
    match takeDigits 3 cs4 with
    | none => none
    | some (d2, cs5) =>
      let (s2, cs6) := optChar isSep cs5
      match takeDigits 4 cs6 with
      | none => none
      | some (d3, cs7) =>
        some (String.mk (p1 ++ d1 ++ p2 ++ s1 ++ d2 ++ s2 ++ d3), cs7)

/-- re.findall of the phone pattern: scan left to right, emit non-overlapping
matches, resume one character further on a miss.  Each attempt consumes at
least one character, so fuel equal to the input length is exact. -/
def scanPhonesAux : Nat → List Char → List String
  | 0, _ => []
  | _ + 1, [] => []
  | fuel + 1, c :: cs =>
    match matchPhoneAt (c :: cs) with
    | some (m, rest) => m :: scanPhonesAux fuel rest
    | none => scanPhonesAux fuel cs

/-- All phone-pattern matches of a string in document order. -/
def findallPhones (s : String) : List String :=
  scanPhonesAux s.toList.length s.toList

/-- Phone Method 3: regex search over the listing innerHTML; failures of
get_attribute are swallowed by `except: pass`. -/
def phoneM3 (innerHTML : Except Err String) : Option String :=
  match innerHTML with
  | .error _ => none
  | .ok html => (findallPhones html).head?

/-- One business record as appended to the results list. -/
structure ListingRecord where
  name : String
  phone : String
deriving DecidableEq

/-- One listing element of a results page: its scrollIntoView call, its
scoped CSS queries and its innerHTML attribute, each able to raise. -/
structure Listing where
  scroll : Except Err Unit
  query : String → Except Err (List DomElem)
  innerHTML : Except Err String

/-- The three-method phone extraction for one listing, defaulting to the
"Not Available" sentinel. -/
def extractPhone (l : Listing) : String :=
  match phoneM1 l.query with
  | some v => v
  | none =>
    match phoneM2 l.query with
    | some v => v
    | none => (phoneM3 l.innerHTML).getD "Not Available"

/-- The body of the per-listing try block: scroll the listing into view,
extract the name (propagating non-NoSuchElement errors), skip the listing
when the name is still "Unknown", otherwise build the record. -/
def processListingE (l : Listing) : Except Err (Option ListingRecord) := do
  let _ ← l.scroll
  let nm ← extractNameE name_selectors l.query
  if nm = "Unknown" then
    return none
  else
    return some { name := nm, phone := extractPhone l }

/-- Per-listing processing with the outer `except Exception: continue`:
any raised error makes the listing contribute nothing. -/
def processListing (l : Listing) : Option ListingRecord :=
  match processListingE l with
  | .ok r => r
  | .error _ => none

/-- Python truthiness of the caller-supplied bounds: `if bound and n >= bound`
is false when the bound is absent or zero. -/
def maxHit : Option Nat → Nat → Bool
  | none, _ => false
  | some m, n => decide (m ≠ 0) && decide (m ≤ n)

/-- The per-page listing loop: before each listing the max_results bound is
checked and, when hit, the whole extraction returns early (flag true). -/
def procListings (maxR : Option Nat) :
    List Listing → List ListingRecord → List ListingRecord × Bool
  | [], acc => (acc, false)
  | l :: ls, acc =>
    if maxHit maxR acc.length then (acc, true)
    else procListings maxR ls (acc ++ (processListing l).toList)

/-- A pagination control candidate: its class attribute and whether clicking
it changes the current URL. -/
structure NextBtn where
  cls : String
  changesUrl : Bool

/-- One results page: the listing-container queries and the next-control
queries, each able to raise. -/
structure PageData where
  listQ : String → Except Err (List Listing)
  nextQ : String → Except Err (List NextBtn)

/-- The listing-container selector chain of extract_listings. -/
def listing_selectors : List String :=
  [".srp-listing", ".result", ".search-results .result", ".organic",
   "[class*=\x27srp-listing\x27]", "[class*=\x27result-item\x27]"]

/-- The next-control selector chain of extract_listings. -/
def next_button_selectors : List String :=
  ["a.next", "a[rel=\x27next\x27]", ".pagination a.next",
   "a[aria-label=\x27Next\x27]", ".next a"]

/-- First listing selector that matches at least one element; query errors
are swallowed and an all-empty chain yields the empty page. -/
def listingChainGo (p : PageData) : List String → List Listing
  | [] => []
  | sel :: rest =>
    match p.listQ sel with
    | .error _ => listingChainGo p rest
    | .ok [] => listingChainGo p rest
    | .ok ls => ls

/-- The listing elements found on a page. -/
def listingChain (p : PageData) : List Listing :=
  listingChainGo p listing_selectors

/-- Button loop for one next selector: a control whose class contains
"disabled" abandons the rest of this selector, an enabled control that
changes the URL succeeds, an enabled one that does not is passed over. -/
def scanButtons : List NextBtn → Bool
  | [] => false
  | b :: bs =>
    if strContains (strLower b.cls) "disabled" then false
    else if b.changesUrl then true
    else scanButtons bs

/-- Whether some next selector yields a qualifying, URL-changing control;
per-selector errors are swallowed and the next selector is tried. -/
def findNext (p : PageData) : Bool :=
  next_button_selectors.any (fun sel =>
    match p.nextQ sel with
    | .error _ => false
    | .ok bs => scanButtons bs)

/-- The browsing environment of a collection run: the page shown after `n`
successful next-navigations. -/
structure CollectEnv where
  pages : Nat → PageData

/-- The page loop of extract_listings.  `nav` counts successful navigations
(current_page = nav + 1); the result carries the records and the final
current_page, and `none` means the fuel ran out before the loop stopped. -/
def walk (env : CollectEnv) (maxR maxP : Option Nat) :
    Nat → Nat → List ListingRecord → Option (List ListingRecord × Nat)
  | 0, _, _ => none
  | fuel + 1, nav, acc =>
    if (listingChain (env.pages nav)).isEmpty then some (acc, nav + 1)
    else if (procListings maxR (listingChain (env.pages nav)) acc).2 then
      some ((procListings maxR (listingChain (env.pages nav)) acc).1, nav + 1)
    else if maxHit maxP (nav + 1) then
      some ((procListings maxR (listingChain (env.pages nav)) acc).1, nav + 1)
    else if findNext (env.pages nav) then
      walk env maxR maxP fuel (nav + 1)
        (procListings maxR (listingChain (env.pages nav)) acc).1
    else
      some ((procListings maxR (listingChain (env.pages nav)) acc).1, nav + 1)

/-- extract_listings of YP_scraper.py: the page loop started on page 1 with
no records. -/
def extract_listings (env : CollectEnv) (maxR maxP : Option Nat)
    (fuel : Nat) : Option (List ListingRecord × Nat) :=
  walk env maxR maxP fuel 0 []

/-- extract_listings of unified_scraper.py: the same loop with no caller
bounds. -/
def extract_listings_unified (env : CollectEnv) (fuel : Nat) :
    Option (List ListingRecord × Nat) :=
  walk env none none fuel 0 []

/-- ASCII view of the local-part class [a-zA-Z0-9._%+-]. -/
def isLocalChar (c : Char) : Bool :=
  c.isAlpha || c.isDigit || c = '.' || c = '_' || c = '%' || c = '+' || c = '-'

/-- ASCII view of the domain class [a-zA-Z0-9.-]. -/
def isDomChar (c : Char) : Bool :=
  c.isAlpha || c.isDigit || c = '.' || c = '-'

/-- Rightmost split of a character list at a "." followed by at least two
ASCII letters: the greedy domain run backtracks from the right, so the
rightmost viable dot is the one the pattern uses. -/
def lastDotSplit : List Char → Option (List Char × List Char)
  | [] => none
  | c :: cs =>
    match lastDotSplit cs with
    | some (a, b) => some (c :: a, b)
    | none =>
      if c = '.' then
        match cs with
        | x :: y :: _ => if x.isAlpha && y.isAlpha then some ([], cs) else none
        | _ => none
      else none

/-- Match the email pattern (local part, "@", domain, ".", two or more
letters) at the start of the list, returning the matched text and the
remaining input. -/
def matchEmailAt (cs : List Char) : Option (String × List Char) :=
  let (loc, cs1) := cs.span isLocalChar
  if loc.isEmpty then none
  else
    match cs1 with
    | '@' :: cs2 =>
      let (dom, rest) := cs2.span isDomChar
      match dom with
      | [] => none
      | d0 :: dtail =>
        match lastDotSplit dtail with
        | none => none
        | some (a, b) =>
          let (tld, bRest) := b.span Char.isAlpha
          some (String.mk (loc ++ '@' :: d0 :: a ++ '.' :: tld), bRest ++ rest)
    | _ => none

/-- re.findall of the email pattern: scan left to right, emit
non-overlapping matches, resume one character further on a miss. -/
def scanEmailsAux : Nat → List Char → List String
  | 0, _ => []
  | _ + 1, [] => []
  | fuel + 1, c :: cs =>
    match matchEmailAt (c :: cs) with
    | some (m, rest) => m :: scanEmailsAux fuel rest
    | none => scanEmailsAux fuel cs

/-- All email-pattern matches of a string in document order. -/
def findallEmails (s : String) : List String :=
  scanEmailsAux s.toList.length s.toList

/-- _extract_email_regex: the first email-pattern match of a text. -/
def firstEmailIn (t : String) : Option String :=
  (findallEmails t).head?

/-- The mailto branch of the element loop: strip the "mailto:" marker, cut
at "?", trim, and accept a non-empty value containing "@". -/
def mailtoEmail (href : String) : Option String :=
  if strContains href "mailto:" then
    let em := strTrim (strCut (strReplace href "mailto:" "") "?")
    if strIsEmpty em then none
    else if strContains em "@" then some em else none
  else none

/-- Per-element check of the email selector chain: first the visible text
(when it contains "@", via the regex), then the href mailto target. -/
def elemEmail (e : DomElem) : Option String :=
  let t := strTrim e.text
  match (if strContains t "@" then firstEmailIn t else none) with
  | some em => some em
  | none => mailtoEmail (e.href.getD "")

/-- The email selector chain of extract_email_from_facebook. -/
def email_selectors : List (By × String) :=
  [(By.XPATH, "//*[contains(text(), \x27@\x27)]"),
   (By.CSS_SELECTOR, "span[data-field=\x27email\x27]"),
   (By.CSS_SELECTOR, "[data-field=\x27email\x27]"),
   (By.XPATH, "//span[contains(., \x27@\x27)]"),
   (By.CSS_SELECTOR, "div[role=\x27main\x27] a[href*=\x27mailto:\x27]"),
   (By.XPATH, "//a[contains(@href, \x27mailto:\x27)]")]

/-- A visited Facebook page: the navigation outcome, the element queries of
the selector chain, and the page source, each able to raise. -/
structure FbPage where
  nav : Except Err Unit
  queryElems : By × String → Except Err (List DomElem)
  pageSource : Except Err String

/-- Selector loop of the email chain: per-selector errors are swallowed,
the first element yielding an email wins. -/
def chainEmailGo (q : By × String → Except Err (List DomElem)) :
    List (By × String) → Option String
  | [] => none
  | sel :: rest =>
    match q sel with
    | .error _ => chainEmailGo q rest
    | .ok es =>
      match es.findSome? elemEmail with
      | some em => some em
      | none => chainEmailGo q rest

/-- The structured email lookup over the whole selector chain. -/
def chainEmail (q : By × String → Except Err (List DomElem)) :
    Option String :=
  chainEmailGo q email_selectors

/-- The blocklist of the regex fallback: a match is discarded when it
contains any of these substrings. -/
def blockedEmail (e : String) : Bool :=
  ["facebook.com", "support@", "noreply", "no-reply", "notification"].any
    (fun x => strContains e x)

/-- URL normalization at the top of extract_email_from_facebook. -/
def normalizeUrl (url : String) : String :=
  if strStarts url "http" then url else "https://" ++ url

/-- extract_email_from_facebook: navigate to the normalized URL, run the
selector chain, fall back to the page-source regex scan with the blocklist
filter, and degrade every failure to the "NaN" sentinel. -/
def extract_email_from_facebook (env : String → FbPage) (url : String) :
    String :=
  match (env (normalizeUrl url)).nav with
  | .error _ => "NaN"
  | .ok _ =>
    match chainEmail (env (normalizeUrl url)).queryElems with
    | some em => em
    | none =>
      match (env (normalizeUrl url)).pageSource with
      | .error _ => "NaN"
      | .ok html =>
        match ((findallEmails html).filter (fun e => !blockedEmail e)).head? with
        | some em => em
        | none => "NaN"

/-- The Google search-input selector chain of search_google. -/
def google_search_selectors : List (By × String) :=
  [(By.NAME, "q"), (By.ID, "APjFqb"),
   (By.CSS_SELECTOR, "input[type=\x27text\x27]")]

/-- One Google search session: navigation, which input selectors become
clickable, the wait for Facebook result links, and the hrefs those links
carry (none when get_attribute returns None). -/
structure GoogleEnv where
  nav : Except Err Unit
  inputClickable : By × String → Bool
  linksWait : Except Err Unit
  links : List (Option String)

/-- `href.split(\x27&\x27)[0].split(\x27?\x27)[0]`. -/
def stripTracking (href : String) : String :=
  strCut (strCut href "&") "?"

/-- The share / interaction blocklist applied to candidate links. -/
def badFrag (href : String) : Bool :=
  ["share", "comment", "like", "watch", "video"].any
    (fun x => strContains href x)

/-- The per-link filter of search_google: a Facebook link that is not an
interaction link, preferring pages and pg paths, else any path with at
least three "/" characters. -/
def linkCandidate (href? : Option String) : Option String :=
  match href? with
  | none => none
  | some href =>
    if strContains href "facebook.com" then
      if badFrag href then none
      else if strContains href "facebook.com/" then
        let u := stripTracking href
        if strContains u "facebook.com/pages" || strContains u "facebook.com/pg"
          then some u
        else if 3 ≤ u.toList.count '/' then some u
        else none
      else none
    else none

/-- Link selection of search_google: the first qualifying link, else the
stripped href of the first link, else nothing. -/
def pickFacebookLink (links : List (Option String)) : Option String :=
  match links.findSome? linkCandidate with
  | some u => some u
  | none =>
    match links.head? with
    | some (some href) => some (stripTracking href)
    | _ => none

/-- search_google: every failure path (navigation error, no clickable input,
failed wait) degrades to no result; the outer except returns None. -/
def search_google (env : GoogleEnv) (_businessName : String) : Option String :=
  match env.nav with
  | .error _ => none
  | .ok _ =>
    if ¬ google_search_selectors.any env.inputClickable then none
    else
      match env.linksWait with
      | .error _ => none
      | .ok _ => pickFacebookLink env.links

/-- The search query built by search_google. -/
def searchQuery (businessName : String) : String :=
  "\"" ++ businessName ++ "\" facebook"

/-- One spreadsheet row: the business name and the Email cell (none models
a missing value, i.e. a pandas NaN float). -/
structure Row where
  name : String
  email : Option String
deriving DecidableEq

/-- `pd.notna(row[\x27Email\x27]) and row[\x27Email\x27] != "NaN"`. -/
def emailDone : Option String → Bool
  | none => false
  | some s => s ≠ "NaN"

/-- Observable effects of an enrichment run: a Google search, a profile
visit, and a full-table save. -/
inductive Ev
  | search (businessName : String)
  | visit (url : String)
  | save (table : List Row)
deriving DecidableEq

/-- The browsing environment of an enrichment run: the Google session for
each business name and the Facebook page behind each normalized URL. -/
structure EnrichEnv where
  google : String → GoogleEnv
  fb : String → FbPage

/-- The lookup for one row that still needs an email: search Google, then,
when a profile URL was found, visit it; the resulting cell value is "NaN"
or the extracted email. -/
def enrichRow (env : EnrichEnv) (businessName : String) :
    Option String × List Ev :=
  match search_google (env.google businessName) businessName with
  | none => (some "NaN", [Ev.search businessName])
  | some u =>
    (some (extract_email_from_facebook env.fb u),
     [Ev.search businessName, Ev.visit u])

/-- One iteration of the enrichment loop: rows whose Email cell is already
populated are skipped before the auto-save check, other rows are looked up
and, at positions where (idx + 1) is a multiple of ten, the whole current
table is saved. -/
def enrichStep (env : EnrichEnv) (idx : Nat) (done : List Row) (r : Row)
    (rest : List Row) : Row × List Ev :=
  if emailDone r.email then (r, [])
  else if (idx + 1) % 10 = 0 then
    ({ r with email := (enrichRow env r.name).1 },
     (enrichRow env r.name).2 ++
       [Ev.save (done ++ { r with email := (enrichRow env r.name).1 } :: rest)])
  else
    ({ r with email := (enrichRow env r.name).1 }, (enrichRow env r.name).2)

/-- The row loop of process_excel_file / process_excel_for_emails. -/
def enrichLoop (env : EnrichEnv) :
    List Row → Nat → List Row → List Row × List Ev
  | [], _, done => (done, [])
  | r :: rs, idx, done =>
    ((enrichLoop env rs (idx + 1)
        (done ++ [(enrichStep env idx done r rs).1])).1,
     (enrichStep env idx done r rs).2 ++
       (enrichLoop env rs (idx + 1)
         (done ++ [(enrichStep env idx done r rs).1])).2)

/-- The whole enrichment batch: the row loop followed by the unconditional
final save. -/
def process_excel_for_emails (env : EnrichEnv) (rows : List Row) :
    List Row × List Ev :=
  ((enrichLoop env rows 0 []).1,
   (enrichLoop env rows 0 []).2 ++ [Ev.save (enrichLoop env rows 0 []).1])

/-- Whether a trace event is a save. -/
def isSave : Ev → Bool
  | .save _ => true
  | _ => false

/-- Number of saves in a trace. -/
def numSaves (tr : List Ev) : Nat :=
  tr.countP isSave

/-- The "What" field selector chain of perform_search. -/
def what_selectors : List (By × String) :=
  [(By.ID, "query"), (By.NAME, "search_terms"),
   (By.CSS_SELECTOR, "input.search-input"),
   (By.CSS_SELECTOR, "#search-form input[type=\x27text\x27]")]

/-- The "Where" field selector chain of perform_search. -/
def where_selectors : List (By × String) :=
  [(By.ID, "location"), (By.CSS_SELECTOR, "input[placeholder*=\x27Where\x27]"),
   (By.CSS_SELECTOR, "input#geo_location_terms"),
   (By.NAME, "geo_location_terms"),
   (By.CSS_SELECTOR, "#search-form input[placeholder*=\x27Where\x27]")]

/-- Outcome of the perform_search body. -/
inductive SearchOutcome
  | ok
  | timedOut
  | failed
deriving DecidableEq

/-- The search-form environment: which selectors the waits accept and
whether results eventually appear. -/
structure SearchEnv where
  clickable : By × String → Bool
  resultsAppear : Bool

/-- The body of perform_search: an exhausted "What" or "Where" chain raises
a plain Exception, a missing search button falls back to the Enter key, and
a missing results container raises a TimeoutException. -/
def performSearchBody (env : SearchEnv) : SearchOutcome :=
  if ¬ what_selectors.any env.clickable then .failed
  else if ¬ where_selectors.any env.clickable then .failed
  else if env.resultsAppear then .ok else .timedOut

/-- perform_search of YP_scraper.py: both handlers save a screenshot to
"search_error.png" and re-raise.  The first component lists the screenshot
files written. -/
def perform_search_YP (env : SearchEnv) : List String × SearchOutcome :=
  match performSearchBody env with
  | .ok => ([], .ok)
  | o => (["search_error.png"], o)

/-- perform_search of unified_scraper.py: both handlers only print and
re-raise; no screenshot is taken. -/
def perform_search_unified (env : SearchEnv) : List String × SearchOutcome :=
  ([], performSearchBody env)

/-! ### Helper lemmas about the name-extraction chain -/

theorem extractNameGo_eq (q : String → Except Err (List DomElem)) :
    ∀ (sels : List String) (acc : String),
      (∀ s ∈ sels, (q s).isOk = true) →
      extractNameGo q sels acc =
        .ok ((winnerQ sels q).getD (if anyMatch sels q then "" else acc)) := by
  intro sels
  induction sels with
  | nil => intro acc _; simp [extractNameGo, winnerQ, anyMatch]
  | cons s rest ih =>
    intro acc h
    have hs : (q s).isOk = true := h s (List.mem_cons_self s rest)
    have hr : ∀ t ∈ rest, (q t).isOk = true := fun t ht =>
      h t (List.mem_cons_of_mem s ht)
    cases hq : q s with
    | error e => rw [hq] at hs; simp [Except.isOk, Except.toBool] at hs
    | ok l =>
      cases l with
      | nil =>
        have hgo : extractNameGo q (s :: rest) acc = extractNameGo q rest acc := by
          simp [extractNameGo, findElementE, hq]
        rw [hgo, ih acc hr]
        simp [winnerQ, anyMatch, List.findSome?_cons, List.any_cons, candVal, hq]
      | cons e es =>
        by_cases ht : strTrim e.text = ""
        · have hgo : extractNameGo q (s :: rest) acc = extractNameGo q rest "" := by
            simp [extractNameGo, findElementE, hq, ht]
          rw [hgo, ih "" hr]
          simp [winnerQ, anyMatch, List.findSome?_cons, List.any_cons, candVal,
            hq, ht]
        · have hgo : extractNameGo q (s :: rest) acc = .ok (strTrim e.text) := by
            simp [extractNameGo, findElementE, hq, ht]
          rw [hgo]
          simp [winnerQ, List.findSome?_cons, candVal, hq, ht]

theorem extractNameGo_skip (q : String → Except Err (List DomElem))
    (t : String) (hok : (q t).isOk = true) (hc : candVal q t = none)
    (sels : List String) (acc : String) :
    ∃ acc', extractNameGo q (t :: sels) acc = extractNameGo q sels acc' := by
  cases hq : q t with
  | error e => rw [hq] at hok; simp [Except.isOk, Except.toBool] at hok
  | ok l =>
    cases l with
    | nil => exact ⟨acc, by simp [extractNameGo, findElementE, hq]⟩
    | cons e es =>
      have ht : strTrim e.text = "" := by
        by_contra hne
        simp [candVal, hq, hne] at hc
      exact ⟨"", by simp [extractNameGo, findElementE, hq, ht]⟩

theorem extractNameGo_winner (q : String → Except Err (List DomElem))
    (s v : String) (hc : candVal q s = some v) (sels : List String)
    (acc : String) : extractNameGo q (s :: sels) acc = .ok v := by
  cases hq : q s with
  | error e => simp [candVal, hq] at hc
  | ok l =>
    cases l with
    | nil => simp [candVal, hq] at hc
    | cons e es =>
      by_cases ht : strTrim e.text = ""
      · simp [candVal, hq, ht] at hc
      · have hv : strTrim e.text = v := by simpa [candVal, hq, ht] using hc
        subst hv
        simp [extractNameGo, findElementE, hq, ht]

theorem extractNameGo_reorder (q : String → Except Err (List DomElem)) :
    ∀ l₁ : List String,
      (∀ t ∈ l₁, (q t).isOk = true ∧ candVal q t = none) →
      ∀ (l₂ : List String) (s v : String), candVal q s = some v →
      ∀ acc, extractNameGo q (l₁ ++ s :: l₂) acc = .ok v := by
  intro l₁
  induction l₁ with
  | nil => intro _ l₂ s v hc acc; exact extractNameGo_winner q s v hc l₂ acc
  | cons t ts ih =>
    intro h l₂ s v hc acc
    obtain ⟨hok, hnone⟩ := h t (List.mem_cons_self t ts)
    obtain ⟨acc', hskip⟩ :=
      extractNameGo_skip q t hok hnone (ts ++ s :: l₂) acc
    rw [List.cons_append, hskip]
    exact ih (fun u hu => h u (List.mem_cons_of_mem t hu)) l₂ s v hc acc'

/-! ### Claim C1 -/

/-- A scope in which two different name candidates both yield non-empty
text. -/
def qTwo : String → Except Err (List DomElem) := fun s =>
  if s = "a.business-name" then .ok [{ text := "Alpha" }]
  else if s = ".business-name" then .ok [{ text := "Beta" }]
  else .ok []

/-- A scope whose only matching name candidate is whitespace-only. -/
def qWsOnly : String → Except Err (List DomElem) := fun s =>
  if s = "a.business-name" then .ok [{ text := "   " }] else .ok []

/-- A scope with one matching name candidate carrying padded text. -/
def qOne : String → Except Err (List DomElem) := fun s =>
  if s = "a.business-name" then .ok [{ text := "  Alpha  " }] else .ok []

/-- C1, counterexample to the claim as stated: swapping two candidates that
both yield non-empty text changes the winner even though the original
winner is still present; and a chain in which some candidate matches but
every match trims to empty returns the empty string, not the "Unknown"
sentinel. -/
theorem c1_counterexample :
    extractNameE ["a.business-name", ".business-name"] qTwo = .ok "Alpha" ∧
    extractNameE [".business-name", "a.business-name"] qTwo = .ok "Beta" ∧
    ("Alpha" : String) ≠ "Beta" ∧
    extractNameE name_selectors qWsOnly = .ok "" ∧
    (Except.ok "" : Except Err String) ≠ .ok "Unknown" := by
  refine ⟨by decide, by decide, by decide, by decide, by decide⟩

/-- C1 (amended): over an error-free scope the extractor returns the trimmed
text of the first candidate, in configured order, whose trimmed text is
non-empty; when no candidate matches any element it returns the "Unknown"
sentinel, but when some candidate matches and every match trims to empty it
returns the empty string; no candidate is retried, and the winner is
preserved by any rearrangement that keeps only failing candidates in front
of it. -/
theorem c1_field_extractor_first_win :
    (∀ (sels : List String) (q : String → Except Err (List DomElem)),
        (∀ s ∈ sels, (q s).isOk = true) →
        extractNameE sels q =
          .ok ((winnerQ sels q).getD
                (if anyMatch sels q then "" else "Unknown"))) ∧
    (∀ (q : String → Except Err (List DomElem)) (l₁ l₂ : List String)
        (s v : String),
        (∀ t ∈ l₁, (q t).isOk = true ∧ candVal q t = none) →
        candVal q s = some v →
        extractNameE (l₁ ++ s :: l₂) q = .ok v) := by
  constructor
  · intro sels q h
    exact extractNameGo_eq q sels "Unknown" h
  · intro q l₁ l₂ s v h hc
    exact extractNameGo_reorder q l₁ h l₂ s v hc "Unknown"

/-- C1 witness: the amended theorem applied to concrete scopes. -/
theorem c1_witness :
    (extractNameE name_selectors qOne =
      .ok ((winnerQ name_selectors qOne).getD
            (if anyMatch name_selectors qOne then "" else "Unknown"))) ∧
    extractNameE (["no-such"] ++ "a.business-name" :: [".x"]) qOne =
      .ok "Alpha" :=
  ⟨c1_field_extractor_first_win.1 name_selectors qOne (by decide),
   c1_field_extractor_first_win.2 qOne ["no-such"] [".x"] "a.business-name"
     "Alpha" (by decide) (by decide)⟩

/-! ### Claim C2 -/

/-- A listing whose only matching name candidate is a whitespace-only
element and whose other queries all come back empty. -/
def lWs : Listing where
  scroll := .ok ()
  query := fun s =>
    if s = "a.business-name" then .ok [{ text := "   " }] else .ok []
  innerHTML := .ok ""

/-- C2, evaluation at the failing input: a listing whose only matching name
candidate is whitespace-only leaves `business_name` equal to the empty
string rather than the "Unknown" sentinel, so the equality-based skip rule
does not fire and a record with an empty Business Name is appended. -/
theorem c2_empty_name_record :
    processListing lWs = some { name := "", phone := "Not Available" } ∧
    ((procListings none [lWs] []).1.countP (fun r => r.name == "")) = 1 := by
  refine ⟨by decide, by decide⟩

/-! ### Claim C9 -/

/-- processListingE written with explicit binds. -/
theorem processListingE_eq (l : Listing) :
    processListingE l = l.scroll.bind (fun _ =>
      (extractNameE name_selectors l.query).bind (fun nm =>
        if nm = "Unknown" then .ok none
        else .ok (some { name := nm, phone := extractPhone l }))) := rfl

/-- C9: the name-extraction miss sentinel is the literal string "Unknown"
and the keep/drop decision is equality against it: a listing whose
extracted name is "Unknown" is dropped, and every record that is kept
carries the extracted name, which is never "Unknown". -/
theorem c9_unknown_sentinel_drop :
    (∀ l : Listing, extractNameE name_selectors l.query = .ok "Unknown" →
      processListing l = none) ∧
    (∀ (l : Listing) (r : ListingRecord), processListing l = some r →
      extractNameE name_selectors l.query = .ok r.name ∧
        r.name ≠ "Unknown") := by
  constructor
  · intro l h
    unfold processListing
    rw [processListingE_eq l]
    cases hs : l.scroll with
    | error e => simp [Except.bind]
    | ok u => simp [Except.bind, h]
  · intro l r h
    unfold processListing at h
    rw [processListingE_eq l] at h
    cases hs : l.scroll with
    | error e => rw [hs] at h; simp [Except.bind] at h
    | ok u =>
      rw [hs] at h
      cases hn : extractNameE name_selectors l.query with
      | error e => rw [hn] at h; simp [Except.bind] at h
      | ok nm =>
        rw [hn] at h
        by_cases hu : nm = "Unknown"
        · simp [Except.bind, hu] at h
        · simp [Except.bind, hu] at h
          rw [← h]
          exact ⟨rfl, hu⟩

/-- A listing whose extracted name is exactly "Unknown". -/
def lUnknown : Listing where
  scroll := .ok ()
  query := fun s =>
    if s = "a.business-name" then .ok [{ text := " Unknown " }] else .ok []
  innerHTML := .ok ""

/-- A listing whose extracted name is "Alpha". -/
def lAlpha : Listing where
  scroll := .ok ()
  query := fun s =>
    if s = "a.business-name" then .ok [{ text := "Alpha" }] else .ok []
  innerHTML := .ok ""

/-- C9 witness: the theorem applied to a listing named "Unknown" and to a
listing named "Alpha". -/
theorem c9_witness :
    processListing lUnknown = none ∧
    (extractNameE name_selectors lAlpha.query =
        .ok (ListingRecord.mk "Alpha" "Not Available").name ∧
      (ListingRecord.mk "Alpha" "Not Available").name ≠ "Unknown") :=
  ⟨c9_unknown_sentinel_drop.1 lUnknown (by decide),
   c9_unknown_sentinel_drop.2 lAlpha ⟨"Alpha", "Not Available"⟩ (by decide)⟩

/-! ### Claim C10 -/

/-- The tel-link candidates a listing offers (empty when the query raises,
in which case Method 2 finds nothing anyway). -/
def telLinks (l : Listing) : List DomElem :=
  match l.query "a[href^=\x27tel:\x27]" with
  | .ok ls => ls
  | .error _ => []

theorem scanTel_some_len (links : List DomElem) (v : String)
    (h : scanTel links = some v) : 10 ≤ strLen v := by
  induction links with
  | nil => simp [scanTel] at h
  | cons e es ih =>
    unfold scanTel at h
    split at h
    · split at h
      · simp at h
      · rename_i hlen
        split at h
        · cases h
          rename_i hlen
          exact hlen
        · exact ih h
    · split at h
      · cases h
        rename_i hlen
        exact hlen
      · exact ih h

theorem scanTel_all_short (links : List DomElem)
    (h : ∀ e ∈ links, strLen (telVal e) < 10) : scanTel links = none := by
  induction links with
  | nil => rfl
  | cons e es ih =>
    have he : strLen (telVal e) < 10 := h e (List.mem_cons_self e es)
    have hrest : ∀ x ∈ es, strLen (telVal x) < 10 := fun x hx =>
      h x (List.mem_cons_of_mem e hx)
    unfold scanTel
    by_cases ht : strIsEmpty (strTrim e.text) = true
    · rw [if_pos ht]
      cases hh : e.href with
      | none => rfl
      | some hr =>
        have hv : telVal e =
            strTrim (strReplace (strReplace hr "tel:" "") "+1" "") := by
          simp [telVal, ht, hh]
        rw [hv] at he
        show (if 10 ≤ strLen
              (strTrim (strReplace (strReplace hr "tel:" "") "+1" ""))
            then some (strTrim (strReplace (strReplace hr "tel:" "") "+1" ""))
            else scanTel es) = none
        rw [if_neg (by omega)]
        exact ih hrest
    · rw [if_neg ht]
      have hv : telVal e = strTrim e.text := by simp [telVal, ht]
      rw [hv] at he
      rw [if_neg (by omega)]
      exact ih hrest

/-- C10: in the tel-link strategy a candidate is accepted only when its
processed value (stripped visible text, or for empty text the href with
"tel:" and "+1" removed and stripped) has length at least ten; when Method 1
found nothing and every tel-link candidate is shorter, the extraction
escalates to the regex strategy over the listing innerHTML. -/
theorem c10_tel_length_gate :
    (∀ (links : List DomElem) (v : String),
        scanTel links = some v → 10 ≤ strLen v) ∧
    (∀ l : Listing, phoneM1 l.query = none →
        (∀ e ∈ telLinks l, strLen (telVal e) < 10) →
        extractPhone l = (phoneM3 l.innerHTML).getD "Not Available") := by
  constructor
  · exact scanTel_some_len
  · intro l h1 h2
    unfold extractPhone
    rw [h1]
    have h2m : phoneM2 l.query = none := by
      unfold phoneM2
      cases hq : l.query "a[href^=\x27tel:\x27]" with
      | error e => rfl
      | ok links =>
        have : telLinks l = links := by simp [telLinks, hq]
        rw [this] at h2
        exact scanTel_all_short links h2
    rw [h2m]

/-- A listing whose tel link is too short and whose markup carries a
regex-recoverable phone number. -/
def lShortTel : Listing where
  scroll := .ok ()
  query := fun s =>
    if s = "a.business-name" then .ok [{ text := "Alpha" }]
    else if s = "a[href^=\x27tel:\x27]" then .ok [{ text := "555-123" }]
    else .ok []
  innerHTML := .ok "call (213) 555-1234 now"

/-- C10 witness: the theorem applied to a qualifying tel link and to a
listing whose only tel candidate is shorter than ten characters. -/
theorem c10_witness :
    10 ≤ strLen "2135551234" ∧
    extractPhone lShortTel = (phoneM3 lShortTel.innerHTML).getD "Not Available" :=
  ⟨c10_tel_length_gate.1 [{ text := "", href := some "tel:+12135551234" }]
      "2135551234" (by decide),
   c10_tel_length_gate.2 lShortTel (by decide) (by decide)⟩

/-! ### Claim C3 -/

theorem procListings_no_early (ls : List Listing) (acc : List ListingRecord) :
    (procListings none ls acc).2 = false := by
  induction ls generalizing acc with
  | nil => rfl
  | cons l ls ih =>
    unfold procListings
    simp only [maxHit, Bool.false_eq_true, if_false]
    exact ih _

theorem walk_bound (env : CollectEnv) (maxR : Option Nat) (k : Nat)
    (hk : 1 ≤ k) :
    ∀ (fuel nav : Nat) (acc : List ListingRecord), nav + 1 ≤ k →
      k ≤ fuel + nav →
      ∃ res, walk env maxR (some k) fuel nav acc = some res ∧ res.2 ≤ k := by
  intro fuel
  induction fuel with
  | zero => intro nav acc h1 h2; omega
  | succ fuel ih =>
    intro nav acc h1 h2
    unfold walk
    by_cases he : (listingChain (env.pages nav)).isEmpty = true
    · rw [if_pos he]
      exact ⟨(acc, nav + 1), rfl, by omega⟩
    · rw [if_neg he]
      by_cases hearly :
          (procListings maxR (listingChain (env.pages nav)) acc).2 = true
      · rw [if_pos hearly]
        exact ⟨_, rfl, by omega⟩
      · rw [if_neg hearly]
        by_cases hm : maxHit (some k) (nav + 1) = true
        · rw [if_pos hm]
          exact ⟨_, rfl, by omega⟩
        · rw [if_neg hm]
          have hlt : nav + 1 < k := by
            simp only [maxHit, Bool.and_eq_true, decide_eq_true_eq] at hm
            omega
          by_cases hn : findNext (env.pages nav) = true
          · rw [if_pos hn]
            exact ih (nav + 1) _ (by omega) (by omega)
          · rw [if_neg hn]
            exact ⟨_, rfl, by omega⟩

theorem walk_stop_step (env : CollectEnv) (fuel nav : Nat)
    (acc : List ListingRecord)
    (h : (listingChain (env.pages nav)).isEmpty = true ∨
      findNext (env.pages nav) = false) :
    ∃ acc', walk env none none (fuel + 1) nav acc = some (acc', nav + 1) := by
  unfold walk
  by_cases he : (listingChain (env.pages nav)).isEmpty = true
  · rw [if_pos he]
    exact ⟨acc, rfl⟩
  · rw [if_neg he]
    have hn : findNext (env.pages nav) = false := by
      rcases h with h | h
      · exact absurd h he
      · exact h
    rw [procListings_no_early]
    simp only [Bool.false_eq_true, if_false, maxHit, hn]
    exact ⟨_, rfl⟩

theorem walk_go_step (env : CollectEnv) (fuel nav : Nat)
    (acc : List ListingRecord)
    (he : (listingChain (env.pages nav)).isEmpty = false)
    (hn : findNext (env.pages nav) = true) :
    walk env none none (fuel + 1) nav acc =
      walk env none none fuel (nav + 1)
        (procListings none (listingChain (env.pages nav)) acc).1 := by
  conv_lhs => unfold walk
  rw [he, procListings_no_early]
  simp only [Bool.false_eq_true, if_false, maxHit, hn, if_true]

theorem walk_no_stop (env : CollectEnv)
    (h : ∀ i, (listingChain (env.pages i)).isEmpty = false ∧
      findNext (env.pages i) = true) :
    ∀ (fuel nav : Nat) (acc : List ListingRecord),
      walk env none none fuel nav acc = none := by
  intro fuel
  induction fuel with
  | zero => intro nav acc; rfl
  | succ fuel ih =>
    intro nav acc
    rw [walk_go_step env fuel nav acc (h nav).1 (h nav).2]
    exact ih _ _

/-- A listing carrying only a business name. -/
def mkListing (nm : String) : Listing where
  scroll := .ok ()
  query := fun s =>
    if s = "a.business-name" then .ok [{ text := nm }] else .ok []
  innerHTML := .ok ""

/-- A page with one listing and, optionally, an enabled URL-changing next
control. -/
def pageWith (nm : String) (hasNext : Bool) : PageData where
  listQ := fun s => if s = ".srp-listing" then .ok [mkListing nm] else .ok []
  nextQ := fun s =>
    if s = "a.next" then
      if hasNext then .ok [{ cls := "", changesUrl := true }] else .ok []
    else .ok []

/-- A page with no listings but with an enabled URL-changing next control. -/
def emptyPageWithNext : PageData where
  listQ := fun _ => .ok []
  nextQ := fun s =>
    if s = "a.next" then .ok [{ cls := "", changesUrl := true }] else .ok []

/-- Three pages, the last without a next control. -/
def env3 : CollectEnv where
  pages := fun n =>
    if n = 0 then pageWith "A" true
    else if n = 1 then pageWith "B" true
    else pageWith "C" false

/-- A page of listings followed by a listing-free page that still offers a
qualifying next control. -/
def env4 : CollectEnv where
  pages := fun n => if n = 0 then pageWith "A" true else emptyPageWithNext

/-- An endless run of pages that always have listings and a next control. -/
def envLoop : CollectEnv where
  pages := fun _ => pageWith "A" true

/-- C3, counterexample to the claim as stated: with maxPages set to 0 the
walk ignores the bound (Python truthiness) and processes three pages; and
with no bound set the walk terminates on a page with no listings even
though that page offers a qualifying, URL-changing next control. -/
theorem c3_counterexample :
    extract_listings env3 none (some 0) 5 =
      some ([⟨"A", "Not Available"⟩, ⟨"B", "Not Available"⟩,
        ⟨"C", "Not Available"⟩], 3) ∧
    ¬ (3 ≤ 0) ∧
    extract_listings env4 none none 5 = some ([⟨"A", "Not Available"⟩], 2) ∧
    findNext (env4.pages 1) = true ∧
    (listingChain (env4.pages 1)).isEmpty = true := by
  refine ⟨by decide, by omega, by decide, by decide, by decide⟩

/-- C3 (amended): when maxPages is set to a positive value k the walk halts
within k iterations and the final current_page is at most k, the bound
being checked after extraction and before navigation; maxPages = 0 is
treated as no bound.  Without bounds the walk halts at the current page
exactly when the page has no listings or no next-control candidate both
lacks a "disabled" class and changes the URL when clicked; otherwise it
advances, and an environment in which every page has listings and a
qualifying control never terminates. -/
theorem c3_pagination_termination :
    (∀ (env : CollectEnv) (maxR : Option Nat) (k : Nat), 1 ≤ k →
        (walk env maxR (some k) k 0 []).isSome = true ∧
        ((walk env maxR (some k) k 0 []).map Prod.snd).getD k ≤ k) ∧
    (∀ (env : CollectEnv) (fuel nav : Nat) (acc : List ListingRecord),
        (listingChain (env.pages nav)).isEmpty = true ∨
          findNext (env.pages nav) = false →
        (walk env none none (fuel + 1) nav acc).map Prod.snd =
          some (nav + 1)) ∧
    (∀ (env : CollectEnv) (fuel nav : Nat) (acc : List ListingRecord),
        (listingChain (env.pages nav)).isEmpty = false →
        findNext (env.pages nav) = true →
        walk env none none (fuel + 1) nav acc =
          walk env none none fuel (nav + 1)
            (procListings none (listingChain (env.pages nav)) acc).1) ∧
    (∀ env : CollectEnv,
        (∀ i, (listingChain (env.pages i)).isEmpty = false ∧
          findNext (env.pages i) = true) →
        ∀ (fuel nav : Nat) (acc : List ListingRecord),
          walk env none none fuel nav acc = none) := by
  refine ⟨?_, ?_, walk_go_step, walk_no_stop⟩
  · intro env maxR k hk
    obtain ⟨res, heq, hle⟩ :=
      walk_bound env maxR k hk k 0 [] (by omega) (by omega)
    rw [heq]
    exact ⟨rfl, by simpa using hle⟩
  · intro env fuel nav acc h
    obtain ⟨acc', heq⟩ := walk_stop_step env fuel nav acc h
    rw [heq]
    rfl

/-- C3 witness: the amended theorem applied to the concrete environments. -/
theorem c3_witness :
    ((walk env3 (some 7) (some 2) 2 0 []).isSome = true ∧
      ((walk env3 (some 7) (some 2) 2 0 []).map Prod.snd).getD 2 ≤ 2) ∧
    (walk env4 none none 5 1 []).map Prod.snd = some 2 ∧
    walk env4 none none 4 0 [] =
      walk env4 none none 3 1
        (procListings none (listingChain (env4.pages 0)) []).1 ∧
    walk envLoop none none 3 0 [] = none :=
  ⟨c3_pagination_termination.1 env3 (some 7) 2 (by omega),
   c3_pagination_termination.2.1 env4 4 1 [] (Or.inl (by decide)),
   c3_pagination_termination.2.2.1 env4 3 0 [] (by decide) (by decide),
   c3_pagination_termination.2.2.2 envLoop
     (fun _ =>
       ⟨(by decide : (listingChain (pageWith "A" true)).isEmpty = false),
        (by decide : findNext (pageWith "A" true) = true)⟩) 3 0 []⟩

/-! ### Claim C4 -/

theorem enrichStep_done (env : EnrichEnv) (idx : Nat) (done : List Row)
    (r : Row) (rest : List Row) (h : emailDone r.email = true) :
    enrichStep env idx done r rest = (r, []) := by
  unfold enrichStep
  rw [if_pos h]

theorem enrichLoop_all_done (env : EnrichEnv) :
    ∀ (rows : List Row) (idx : Nat) (done : List Row),
      (∀ r ∈ rows, emailDone r.email = true) →
      enrichLoop env rows idx done = (done ++ rows, []) := by
  intro rows
  induction rows with
  | nil => intro idx done _; simp [enrichLoop]
  | cons r rs ih =>
    intro idx done h
    have hr : emailDone r.email = true := h r (List.mem_cons_self r rs)
    have hrs : ∀ x ∈ rs, emailDone x.email = true := fun x hx =>
      h x (List.mem_cons_of_mem r hx)
    unfold enrichLoop
    rw [enrichStep_done env idx done r rs hr,
      ih (idx + 1) (done ++ [r]) hrs]
    simp

/-- C4: when every row of the table already carries a present, non-"NaN"
email, the batch performs no Google search and no profile visit, every row
is left unchanged, and the only persisted write is the final save of the
unchanged table. -/
theorem c4_idempotent_rerun (env : EnrichEnv) (rows : List Row)
    (h : ∀ r ∈ rows, emailDone r.email = true) :
    process_excel_for_emails env rows = (rows, [Ev.save rows]) := by
  unfold process_excel_for_emails
  rw [enrichLoop_all_done env rows 0 [] h]
  simp

/-- A Google session in which no search input is found. -/
def gNone : GoogleEnv where
  nav := .ok ()
  inputClickable := fun _ => false
  linksWait := .ok ()
  links := []

/-- A Facebook page with no elements and an empty source. -/
def fbEmpty : FbPage where
  nav := .ok ()
  queryElems := fun _ => .ok []
  pageSource := .ok ""

/-- An enrichment environment in which every lookup comes back empty. -/
def envNull : EnrichEnv where
  google := fun _ => gNone
  fb := fun _ => fbEmpty

/-- A fully enriched table. -/
def rowsDone : List Row :=
  [{ name := "A", email := some "a@b.co" },
   { name := "C", email := some "c@d.ee" }]

/-- C4 witness: the theorem applied to a concrete fully-enriched table. -/
theorem c4_witness :
    process_excel_for_emails envNull rowsDone = (rowsDone, [Ev.save rowsDone]) :=
  c4_idempotent_rerun envNull rowsDone (by decide)

/-! ### Claim C6 -/

theorem enrichRow_no_save (env : EnrichEnv) (nm : String) :
    numSaves (enrichRow env nm).2 = 0 := by
  unfold enrichRow numSaves
  cases search_google (env.google nm) nm <;> simp [isSave]

theorem enrichStep_saves (env : EnrichEnv) (idx : Nat) (done : List Row)
    (r : Row) (rest : List Row) :
    numSaves (enrichStep env idx done r rest).2 =
      if (idx + 1) % 10 = 0 ∧ emailDone r.email = false then 1 else 0 := by
  unfold enrichStep
  by_cases hd : emailDone r.email = true
  · simp [hd, numSaves, isSave]
  · have hd' : emailDone r.email = false := by
      cases hdd : emailDone r.email
      · rfl
      · exact absurd hdd hd
    rw [if_neg hd]
    by_cases hm : (idx + 1) % 10 = 0
    · rw [if_pos hm, if_pos ⟨hm, hd'⟩]
      have h0 := enrichRow_no_save env r.name
      unfold numSaves at h0 ⊢
      rw [List.countP_append, h0]
      simp [isSave]
    · rw [if_neg hm, if_neg (by intro hc; exact hm hc.1)]
      exact enrichRow_no_save env r.name

theorem enrichLoop_saves (env : EnrichEnv) :
    ∀ (rows : List Row) (idx : Nat) (done : List Row),
      numSaves (enrichLoop env rows idx done).2 =
        (rows.enumFrom idx).countP
          (fun p => decide ((p.1 + 1) % 10 = 0) && !emailDone p.2.email) := by
  intro rows
  induction rows with
  | nil => intro idx done; rfl
  | cons r rs ih =>
    intro idx done
    show numSaves ((enrichStep env idx done r rs).2 ++
      (enrichLoop env rs (idx + 1)
        (done ++ [(enrichStep env idx done r rs).1])).2) = _
    unfold numSaves
    rw [List.countP_append]
    have h1 := enrichStep_saves env idx done r rs
    have h2 := ih (idx + 1) (done ++ [(enrichStep env idx done r rs).1])
    unfold numSaves at h1 h2
    rw [h1, h2]
    show _ = List.countP _ ((idx, r) :: rs.enumFrom (idx + 1))
    rw [List.countP_cons]
    have harith :
        (if (idx + 1) % 10 = 0 ∧ emailDone r.email = false then 1 else 0) =
          (if (decide ((idx + 1) % 10 = 0) && !emailDone r.email) = true
            then 1 else 0 : Nat) := by
      by_cases hm : (idx + 1) % 10 = 0 <;>
        cases hdd : emailDone r.email <;> simp [hm, hdd]
    rw [harith, Nat.add_comm]


theorem process_saves_eq (env : EnrichEnv) (rows : List Row) :
    numSaves (process_excel_for_emails env rows).2 =
      ((rows.enumFrom 0).countP
        (fun p => decide ((p.1 + 1) % 10 = 0) && !emailDone p.2.email)) + 1 := by
  unfold process_excel_for_emails
  show numSaves ((enrichLoop env rows 0 []).2 ++
    [Ev.save (enrichLoop env rows 0 []).1]) = _
  unfold numSaves
  rw [List.countP_append]
  have h := enrichLoop_saves env rows 0 []
  unfold numSaves at h
  rw [h]
  simp [isSave]

/-- A batch of 35 rows, none of which has an email yet. -/
def rows35 : List Row := List.replicate 35 { name := "B", email := none }

/-- A batch of 20 rows in which exactly the tenth row already carries an
email. -/
def rows20bad : List Row :=
  (List.range 20).map (fun i =>
    if i = 9 then { name := "B", email := some "x@y.zz" }
    else ({ name := "B", email := none } : Row))

/-- C6, counterexample to the claim as stated: in a batch of 20 rows whose
tenth row is skipped (it already carries an email), the run writes the
table only twice (after row 20 and the final save) instead of the three
writes the claimed cadence (after records 10 and 20, and once more at the
end) requires. -/
theorem c6_counterexample :
    numSaves (process_excel_for_emails envNull rows20bad).2 = 2 ∧
    (2 : Nat) ≠ 20 / 10 + 1 := by
  refine ⟨?_, by omega⟩
  rw [process_saves_eq]
  decide

/-- C6 (amended): the auto-save fires exactly after those loop positions
idx with (idx + 1) divisible by ten whose row was not skipped (its Email
cell absent or "NaN"); a skipped row suppresses the auto-save of that cycle; the
final save is unconditional.  In a batch of 35 rows none of which carries
an email, the table is written four times: after rows 10, 20, 30 and once
more at the end. -/
theorem c6_save_cadence :
    (∀ (env : EnrichEnv) (rows : List Row),
        numSaves (process_excel_for_emails env rows).2 =
          ((rows.enumFrom 0).countP
            (fun p => decide ((p.1 + 1) % 10 = 0) && !emailDone p.2.email))
            + 1) ∧
    numSaves (process_excel_for_emails envNull rows35).2 = 4 :=
  ⟨process_saves_eq, by rw [process_saves_eq]; decide⟩

/-! ### Claim C5 -/

theorem filter_not_blocked_nil (l : List String)
    (h : ∀ e ∈ l, blockedEmail e = true) :
    l.filter (fun e => !blockedEmail e) = [] := by
  induction l with
  | nil => rfl
  | cons a l ih =>
    rw [List.filter_cons]
    have ha : blockedEmail a = true := h a (List.mem_cons_self a l)
    simp only [ha, Bool.not_true, Bool.false_eq_true, if_false]
    exact ih (fun e he => h e (List.mem_cons_of_mem a he))

theorem filter_head_first (pre post : List String) (em : String)
    (hpre : ∀ e ∈ pre, blockedEmail e = true)
    (hem : blockedEmail em = false) :
    ((pre ++ em :: post).filter (fun e => !blockedEmail e)).head? =
      some em := by
  rw [List.filter_append, filter_not_blocked_nil pre hpre]
  rw [List.filter_cons]
  simp [hem]

/-- C5 (amended): when the element chain finds nothing, the regex fallback
collects every email-pattern match of the page source in document order,
discards exactly those that contain "facebook.com", "support@", "noreply",
"no-reply" or "notification" as a substring, and returns the first
surviving match, or "NaN" when every match is discarded. -/
theorem c5_regex_fallback :
    ∀ (env : String → FbPage) (url html : String),
      (env (normalizeUrl url)).nav = .ok () →
      chainEmail (env (normalizeUrl url)).queryElems = none →
      (env (normalizeUrl url)).pageSource = .ok html →
      ((∀ e ∈ findallEmails html, blockedEmail e = true) →
          extract_email_from_facebook env url = "NaN") ∧
      (∀ (pre post : List String) (em : String),
          findallEmails html = pre ++ em :: post →
          (∀ e ∈ pre, blockedEmail e = true) →
          blockedEmail em = false →
          extract_email_from_facebook env url = em) := by
  intro env url html hnav hchain hsrc
  have hbase : extract_email_from_facebook env url =
      (match ((findallEmails html).filter
          (fun e => !blockedEmail e)).head? with
        | some em => em
        | none => "NaN") := by
    unfold extract_email_from_facebook
    rw [hnav, hchain, hsrc]
  constructor
  · intro hall
    rw [hbase, filter_not_blocked_nil (findallEmails html) hall]
    rfl
  · intro pre post em hsplit hpre hem
    rw [hbase, hsplit, filter_head_first pre post em hpre hem]

/-- The blocklist as the claim words it: an address beginning with
"support", "noreply", "no-reply" or "notification", or one whose domain
(the part after the last "@") is the domain of the platform. -/
def claimBlockedEmail (e : String) : Bool :=
  strStarts e "support" || strStarts e "noreply" || strStarts e "no-reply" ||
    strStarts e "notification" ||
    (String.mk ((e.toList.reverse.takeWhile (fun c => c ≠ '@')).reverse)
        = "facebook.com" ||
      leadsWith ".facebook.com".toList.reverse
        (e.toList.reverse.takeWhile (fun c => c ≠ '@')))

/-- A profile page whose only email-pattern match contains "support@" as a
substring without beginning with "support". -/
def pageMySupport : FbPage where
  nav := .ok ()
  queryElems := fun _ => .ok []
  pageSource := .ok "contact mysupport@example.org now"

/-- The navigation environment serving that page for every URL. -/
def envMySupport : String → FbPage := fun _ => pageMySupport

/-- C5, counterexample to the claim as stated: the only match of the page,
mysupport@example.org, neither begins with any of the listed markers nor
is on the domain of the platform, so the claimed filter keeps it and the
scan should return it; the code discards it by substring and returns
"NaN". -/
theorem c5_counterexample :
    extract_email_from_facebook envMySupport "facebook.com/biz" = "NaN" ∧
    findallEmails "contact mysupport@example.org now" =
      ["mysupport@example.org"] ∧
    claimBlockedEmail "mysupport@example.org" = false ∧
    ("NaN" : String) ≠ "mysupport@example.org" := by
  refine ⟨by decide, by decide, by decide, by decide⟩

/-- A profile page whose source holds support@facebook.com twice and
info@example.org once. -/
def pageInfo : FbPage where
  nav := .ok ()
  queryElems := fun _ => .ok []
  pageSource :=
    .ok "support@facebook.com support@facebook.com info@example.org"

/-- The navigation environment serving that page for every URL. -/
def envInfo : String → FbPage := fun _ => pageInfo

/-- C5 witness: the amended theorem applied to the concrete page of the
example in the claim, returning info@example.org. -/
theorem c5_witness :
    extract_email_from_facebook envInfo "facebook.com/biz" =
      "info@example.org" :=
  (c5_regex_fallback envInfo "facebook.com/biz"
      "support@facebook.com support@facebook.com info@example.org"
      (by decide) (by decide) (by decide)).2
    ["support@facebook.com", "support@facebook.com"] [] "info@example.org"
    (by decide) (by decide) (by decide)

/-! ### Claim C7 -/

theorem procListings_extends (maxR : Option Nat) :
    ∀ (ls : List Listing) (acc : List ListingRecord),
      ∃ s, (procListings maxR ls acc).1 = acc ++ s := by
  intro ls
  induction ls with
  | nil => intro acc; exact ⟨[], by simp [procListings]⟩
  | cons l ls ih =>
    intro acc
    unfold procListings
    by_cases hm : maxHit maxR acc.length = true
    · rw [if_pos hm]
      exact ⟨[], by simp⟩
    · rw [if_neg hm]
      obtain ⟨s, hs⟩ := ih (acc ++ (processListing l).toList)
      exact ⟨(processListing l).toList ++ s, by rw [hs, List.append_assoc]⟩

theorem enrichLoop_extends (env : EnrichEnv) :
    ∀ (rows : List Row) (idx : Nat) (done : List Row),
      ∃ s, (enrichLoop env rows idx done).1 = done ++ s := by
  intro rows
  induction rows with
  | nil => intro idx done; exact ⟨[], by simp [enrichLoop]⟩
  | cons r rs ih =>
    intro idx done
    show ∃ s, (enrichLoop env rs (idx + 1)
      (done ++ [(enrichStep env idx done r rs).1])).1 = done ++ s
    obtain ⟨s, hs⟩ := ih (idx + 1) (done ++ [(enrichStep env idx done r rs).1])
    exact ⟨[(enrichStep env idx done r rs).1] ++ s,
      by rw [hs, List.append_assoc]⟩

/-- C7: a raised exception while processing one listing makes that listing
contribute nothing, records accumulated before any listing survive the rest
of the page loop unchanged, a navigation failure during an enrichment
lookup degrades to the "NaN" / no-profile sentinel rather than
propagating, and rows finished before the current one survive the rest of
the enrichment loop unchanged. -/
theorem c7_per_record_isolation :
    (∀ (l : Listing) (e : Err),
        processListingE l = .error e → processListing l = none) ∧
    (∀ (maxR : Option Nat) (ls : List Listing) (acc : List ListingRecord),
        (procListings maxR ls acc).1.take acc.length = acc) ∧
    (∀ (env : String → FbPage) (url : String) (e : Err),
        (env (normalizeUrl url)).nav = .error e →
        extract_email_from_facebook env url = "NaN") ∧
    (∀ (genv : GoogleEnv) (nm : String) (e : Err),
        genv.nav = .error e → search_google genv nm = none) ∧
    (∀ (env : EnrichEnv) (rows : List Row) (idx : Nat) (done : List Row),
        (enrichLoop env rows idx done).1.take done.length = done) := by
  refine ⟨?_, ?_, ?_, ?_, ?_⟩
  · intro l e h
    unfold processListing
    rw [h]
  · intro maxR ls acc
    obtain ⟨s, hs⟩ := procListings_extends maxR ls acc
    rw [hs, List.take_left]
  · intro env url e h
    unfold extract_email_from_facebook
    rw [h]
  · intro genv nm e h
    unfold search_google
    rw [h]
  · intro env rows idx done
    obtain ⟨s, hs⟩ := enrichLoop_extends env rows idx done
    rw [hs, List.take_left]

/-- A listing whose scrollIntoView call raises. -/
def lFail : Listing where
  scroll := .error .other
  query := fun _ => .ok []
  innerHTML := .ok ""

/-- A Facebook page whose navigation times out. -/
def fbNavFail : FbPage where
  nav := .error .timeoutErr
  queryElems := fun _ => .ok []
  pageSource := .ok ""

/-- The navigation environment serving that failing page. -/
def envNavFail : String → FbPage := fun _ => fbNavFail

/-- A Google session whose navigation raises. -/
def gNavFail : GoogleEnv where
  nav := .error .other
  inputClickable := fun _ => false
  linksWait := .ok ()
  links := []

/-- C7 witness: the theorem applied to concrete failing listings and
sessions. -/
theorem c7_witness :
    processListing lFail = none ∧
    (procListings none [mkListing "A"]
        [⟨"Z", "1"⟩]).1.take 1 = [⟨"Z", "1"⟩] ∧
    extract_email_from_facebook envNavFail "x.com" = "NaN" ∧
    search_google gNavFail "B" = none ∧
    (enrichLoop envNull [{ name := "B", email := none }] 0
        [{ name := "A", email := some "a@b.co" }]).1.take 1 =
      [({ name := "A", email := some "a@b.co" } : Row)] :=
  ⟨c7_per_record_isolation.1 lFail Err.other (by decide),
   c7_per_record_isolation.2.1 none [mkListing "A"] [⟨"Z", "1"⟩],
   c7_per_record_isolation.2.2.1 envNavFail "x.com" Err.timeoutErr
     (by decide),
   c7_per_record_isolation.2.2.2.1 gNavFail "B" Err.other (by decide),
   c7_per_record_isolation.2.2.2.2 envNull [{ name := "B", email := none }] 0
     [{ name := "A", email := some "a@b.co" }]⟩

/-! ### Claim C8 -/

/-- A search session in which both form fields are found but the results
container never appears. -/
def envTimeout : SearchEnv where
  clickable := fun _ => true
  resultsAppear := false

/-- C8, counterexample to the claim as stated: in unified_scraper.py the
error path of perform_search re-raises without writing any screenshot
file. -/
theorem c8_counterexample :
    performSearchBody envTimeout = .timedOut ∧
    perform_search_unified envTimeout = ([], .timedOut) := by
  refine ⟨by decide, by decide⟩

/-- C8 (amended): on an unrecoverable search error, YP_scraper.py writes a
screenshot to the fixed filename search_error.png before re-raising, while
unified_scraper.py re-raises the same error without writing a
screenshot. -/
theorem c8_screenshot_on_failure (env : SearchEnv) (o : SearchOutcome)
    (h : performSearchBody env = o) (hne : o ≠ .ok) :
    perform_search_YP env = (["search_error.png"], o) ∧
    perform_search_unified env = ([], o) := by
  constructor
  · unfold perform_search_YP
    rw [h]
    cases o with
    | ok => exact absurd rfl hne
    | timedOut => rfl
    | failed => rfl
  · unfold perform_search_unified
    rw [h]

/-- C8 witness: the amended theorem applied to the timing-out session. -/
theorem c8_witness :
    perform_search_YP envTimeout = (["search_error.png"], .timedOut) ∧
    perform_search_unified envTimeout = ([], .timedOut) :=
  c8_screenshot_on_failure envTimeout .timedOut (by decide) (by decide)

end WebScrapers
